import Mathlib

/-!
Shallow embedding of the FeexPay webhook service (`src/main.py`) and proofs
about its specified behaviour.

The service has four parts, all embedded here from the source:

* `map_payment_status`  — the status mapper (main.py, lines 103-110);
* `verify_signature`    — HMAC-SHA256 signature verification
                          (main.py, lines 77-96), with a full executable
                          HMAC-SHA256 implementation standing for Python's
                          `hmac.new(..., hashlib.sha256).hexdigest()`;
* `upsert_order`        — the order reconciler (main.py, lines 113-174),
                          with the Supabase table modelled as a `List Order`
                          and every collaborator access recorded in a
                          `List DbOp` trace;
* `feexpay_webhook`     — the HTTP handler (main.py, lines 181-204),
                          parameterised over the reconciler outcome exactly
                          as the source's try/except is.

Python truthiness on optional strings (`None` and `""` are falsy) is modelled
by `truthy`, and the `a or b` fallback chains by `pyOr` / `pyOrStr`.
-/

/-- Python truthiness of an optional string: `None` and `""` are falsy. -/
def truthy : Option String → Bool
  | none => false
  | some s => s != ""

/-- Python `a or b` on two optional strings: `a` if truthy, else `b`. -/
def pyOr (a b : Option String) : Option String :=
  if truthy a then a else b

/-- Python `a or b` where the fallback is a plain string (always truthy). -/
def pyOrStr (a : Option String) (b : String) : String :=
  match a with
  | none => b
  | some s => if s == "" then b else s

/-- The string carried by a truthy optional (used only under a truthiness guard). -/
def strOf : Option String → String
  | none => ""
  | some s => s

/-- Python `str.upper()`: uppercase every character (ASCII-faithful). -/
def str_upper (s : String) : String :=
  String.mk (s.data.map Char.toUpper)

/-- Embeds `map_payment_status` (main.py 103-110): uppercase the raw provider status
and collapse it to one of the three canonical application states. -/
def map_payment_status (provider_status : String) : String :=
  if (["SUCCESS", "SUCCESSFUL", "COMPLETED"] : List String).contains (str_upper provider_status) then
    "confirmed"
  else if (["FAIL", "FAILED", "CANCELED", "CANCELLED"] : List String).contains (str_upper provider_status) then
    "failed"
  else
    "pending"

/-- A decoded webhook JSON payload: the seven fields `upsert_order` reads,
each optional (absent key → `none`). `amount` is opaque to the reconciler and
modelled as an optional integer. -/
structure Payload where
  transaction_id : Option String
  reference : Option String
  order_number : Option String
  status : Option String
  payment_status : Option String
  payment_provider : Option String
  amount : Option Int
deriving DecidableEq, Repr

/-- A row of the external `orders` table: the eight columns the reconciler
reads or writes, all nullable on the collaborator side. -/
structure Order where
  order_number : Option String
  transaction_id : Option String
  payment_reference : Option String
  payment_provider : Option String
  payment_status : Option String
  status : Option String
  total_amount : Option Int
  notes : Option String
deriving DecidableEq, Repr

/-- One access to the persistence collaborator, in the order issued. -/
inductive DbOp where
  | selectByOrderNumber (v : String)
  | selectByTransactionId (v : String)
  | updateByOrderNumber (v : String)
  | updateByTransactionId (v : String)
  | insert
deriving DecidableEq, Repr

/-- A write access (update or insert), as opposed to a lookup. -/
def DbOp.isWrite : DbOp → Bool
  | DbOp.selectByOrderNumber _ => false
  | DbOp.selectByTransactionId _ => false
  | _ => true

/-- An update access. -/
def DbOp.isUpdate : DbOp → Bool
  | DbOp.updateByOrderNumber _ => true
  | DbOp.updateByTransactionId _ => true
  | _ => false

/-- Number of write accesses (updates or inserts) in a trace. -/
def countWrites (ops : List DbOp) : Nat :=
  ops.countP (fun op => op.isWrite)

/-- A Python exception escaping the reconciler: either a FastAPI
`HTTPException(status, detail)` or any other exception (e.g. a persistence
failure), carrying `str(e)`. -/
inductive PyExc where
  | httpException (status : Nat) (detail : String)
  | otherException (msg : String)
deriving DecidableEq, Repr

/-- Extraction `tx_id = payload.get("transaction_id") or payload.get("reference")` (main.py 114). -/
def txIdOf (p : Payload) : Option String :=
  pyOr p.transaction_id p.reference

/-- Extraction `order_ref = payload.get("order_number") or payload.get("reference")` (main.py 115). -/
def orderRefOf (p : Payload) : Option String :=
  pyOr p.order_number p.reference

/-- Extraction `provider_status = payload.get("status") or payload.get("payment_status")` (main.py 116). -/
def providerStatusOf (p : Payload) : Option String :=
  pyOr p.status p.payment_status

/-- Extraction `provider_name = payload.get("payment_provider") or "feexpay"` (main.py 117). -/
def providerNameOf (p : Payload) : String :=
  pyOrStr p.payment_provider "feexpay"

/-- Derivation `status_app = map_payment_status(provider_status or "")` (main.py 125). -/
def statusAppOf (p : Payload) : String :=
  map_payment_status (pyOrStr (providerStatusOf p) "")

/-- Row predicate of `.eq("order_number", order_ref)` (main.py 132): the
column equals the (truthy) filter string; a NULL column never matches. -/
def orderMatches (v : String) (o : Order) : Bool :=
  o.order_number == some v

/-- Row predicate of `.eq("transaction_id", tx_id)` (main.py 151). -/
def txMatches (v : String) (o : Order) : Bool :=
  o.transaction_id == some v

/-- The update dict of the update-by-order_number branch (main.py 137-143)
applied to a matching row. -/
def update_fields_by_order (p : Payload) (o : Order) : Order :=
  { o with
    transaction_id := txIdOf p
    payment_reference := orderRefOf p
    payment_provider := some (providerNameOf p)
    payment_status := providerStatusOf p
    status := some (statusAppOf p) }

/-- The update dict of the update-by-transaction_id branch (main.py 156-161)
applied to a matching row. -/
def update_fields_by_tx (p : Payload) (o : Order) : Order :=
  { o with
    payment_reference := orderRefOf p
    payment_provider := some (providerNameOf p)
    payment_status := providerStatusOf p
    status := some (statusAppOf p) }

/-- The insert dict of the fallthrough insert (main.py 165-174). -/
def insert_record (p : Payload) : Order :=
  { order_number := orderRefOf p
    transaction_id := txIdOf p
    payment_reference := orderRefOf p
    payment_provider := some (providerNameOf p)
    payment_status := providerStatusOf p
    status := some (statusAppOf p)
    total_amount := p.amount
    notes := some "Created by FeexPay webhook" }

/-- Step 3 of the reconciler: the unconditional insert reached when neither
lookup matched (main.py 164-174). `ops` is the access trace so far. -/
def upsert_step3 (p : Payload) (db : List Order) (ops : List DbOp) :
    Except PyExc (List Order) × List DbOp :=
  (Except.ok (db ++ [insert_record p]), ops ++ [DbOp.insert])

/-- Step 2 of the reconciler: the update-by-transaction_id branch
(main.py 146-162), falling through to the insert. -/
def upsert_step2 (p : Payload) (db : List Order) (ops : List DbOp) :
    Except PyExc (List Order) × List DbOp :=
  match txIdOf p with
  | some t =>
    if t != "" then
      if db.any (txMatches t) then
        (Except.ok (db.map fun o => if txMatches t o then update_fields_by_tx p o else o),
         ops ++ [DbOp.selectByTransactionId t, DbOp.updateByTransactionId t])
      else
        upsert_step3 p db (ops ++ [DbOp.selectByTransactionId t])
    else
      upsert_step3 p db ops
  | none => upsert_step3 p db ops

/-- Embeds `upsert_order` (main.py 113-174): extract the identifiers through their
fallback chains, reject when both are falsy, then try update-by-order_number,
update-by-transaction_id, and finally insert. The result pairs the reconciler
outcome with the trace of collaborator accesses. -/
def upsert_order (p : Payload) (db : List Order) :
    Except PyExc (List Order) × List DbOp :=
  if !truthy (txIdOf p) && !truthy (orderRefOf p) then
    (Except.error (PyExc.httpException 400 "transaction_id or order_number is required"), [])
  else
    match orderRefOf p with
    | some v =>
      if v != "" then
        if db.any (orderMatches v) then
          (Except.ok (db.map fun o => if orderMatches v o then update_fields_by_order p o else o),
           [DbOp.selectByOrderNumber v, DbOp.updateByOrderNumber v])
        else
          upsert_step2 p db [DbOp.selectByOrderNumber v]
      else
        upsert_step2 p db []
    | none => upsert_step2 p db []

/-- Whether the first lookup (by order_number) hits: `order_ref` truthy and a
row with that order_number exists. -/
def order_lookup_hit (p : Payload) (db : List Order) : Bool :=
  match orderRefOf p with
  | some v => v != "" && db.any (orderMatches v)
  | none => false

/-- Whether the second lookup (by transaction_id) hits. -/
def tx_lookup_hit (p : Payload) (db : List Order) : Bool :=
  match txIdOf p with
  | some t => t != "" && db.any (txMatches t)
  | none => false

/-! ### HMAC-SHA256 (the `hmac` / `hashlib` calls of main.py 89-93)

Bytes are `Nat`s below 256; 32-bit machine words are `Nat`s reduced modulo
`2 ^ 32` wherever overflow matters. -/

/-- Reduce modulo `2 ^ 32` (32-bit wrap-around). -/
def w32 (n : Nat) : Nat := n % 4294967296

/-- Rotate a 32-bit word right by `n` places (input assumed below `2 ^ 32`). -/
def rotr32 (n x : Nat) : Nat :=
  (x % 2 ^ n) * 2 ^ (32 - n) + x / 2 ^ n

/-- The 32-bit bitwise complement (input assumed below `2 ^ 32`). -/
def not32 (x : Nat) : Nat := 4294967295 - x

/-- Big-endian bytes of `n`, exactly `k` bytes wide. -/
def beBytes (k n : Nat) : List Nat :=
  match k with
  | 0 => []
  | k + 1 => beBytes k (n / 256) ++ [n % 256]

/-- Pack bytes into big-endian 32-bit words, four at a time. -/
def toWords : List Nat → List Nat
  | a :: b :: c :: d :: rest => (((a * 256 + b) * 256 + c) * 256 + d) :: toWords rest
  | _ => []

/-- Split a word list into 16-word blocks (`fuel` bounds the recursion and is
always passed `≥` the number of blocks). -/
def chunks16Aux (fuel : Nat) (ws : List Nat) : List (List Nat) :=
  match fuel with
  | 0 => []
  | f + 1 =>
    match ws with
    | [] => []
    | _ => ws.take 16 :: chunks16Aux f (ws.drop 16)

/-- Split a word list into 16-word blocks. -/
def chunks16 (ws : List Nat) : List (List Nat) :=
  chunks16Aux ws.length ws

/-- The 64 SHA-256 round constants. -/
def sha256K : List Nat :=
  [1116352408, 1899447441, 3049323471, 3921009573, 961987163, 1508970993,
   2453635748, 2870763221, 3624381080, 310598401, 607225278, 1426881987,
   1925078388, 2162078206, 2614888103, 3248222580, 3835390401, 4022224774,
   264347078, 604807628, 770255983, 1249150122, 1555081692, 1996064986,
   2554220882, 2821834349, 2952996808, 3210313671, 3336571891, 3584528711,
   113926993, 338241895, 666307205, 773529912, 1294757372, 1396182291,
   1695183700, 1986661051, 2177026350, 2456956037, 2730485921, 2820302411,
   3259730800, 3345764771, 3516065817, 3600352804, 4094571909, 275423344,
   430227734, 506948616, 659060556, 883997877, 958139571, 1322822218,
   1537002063, 1747873779, 1955562222, 2024104815, 2227730452, 2361852424,
   2428436474, 2756734187, 3204031479, 3329325298]

/-- The SHA-256 working state: eight 32-bit words. -/
structure Hash8 where
  a : Nat
  b : Nat
  c : Nat
  d : Nat
  e : Nat
  f : Nat
  g : Nat
  h : Nat
deriving DecidableEq, Repr

/-- The SHA-256 initial hash value. -/
def sha256Init : Hash8 :=
  ⟨1779033703, 3144134277, 1013904242, 2773480762,
   1359893119, 2600822924, 528734635, 1541459225⟩

/-- Extend a 16-word message block to the 64-word schedule (`fuel` is 48). -/
def extendSchedule (fuel : Nat) (w : List Nat) : List Nat :=
  match fuel with
  | 0 => w
  | f + 1 =>
    let j := w.length
    let x15 := w.getD (j - 15) 0
    let x2 := w.getD (j - 2) 0
    let s0 := rotr32 7 x15 ^^^ rotr32 18 x15 ^^^ (x15 >>> 3)
    let s1 := rotr32 17 x2 ^^^ rotr32 19 x2 ^^^ (x2 >>> 10)
    extendSchedule f (w ++ [w32 (w.getD (j - 16) 0 + s0 + w.getD (j - 7) 0 + s1)])

/-- One SHA-256 compression round. -/
def sha256Round (st : Hash8) (ki wi : Nat) : Hash8 :=
  let s1 := rotr32 6 st.e ^^^ rotr32 11 st.e ^^^ rotr32 25 st.e
  let ch := (st.e &&& st.f) ^^^ (not32 st.e &&& st.g)
  let temp1 := w32 (st.h + s1 + ch + ki + wi)
  let s0 := rotr32 2 st.a ^^^ rotr32 13 st.a ^^^ rotr32 22 st.a
  let maj := (st.a &&& st.b) ^^^ (st.a &&& st.c) ^^^ (st.b &&& st.c)
  let temp2 := w32 (s0 + maj)
  ⟨w32 (temp1 + temp2), st.a, st.b, st.c, w32 (st.d + temp1), st.e, st.f, st.g⟩

/-- Compress one 16-word block into the running hash value. -/
def compressBlock (H : Hash8) (block : List Nat) : Hash8 :=
  let w := extendSchedule 48 block
  let st := (sha256K.zip w).foldl (fun st kw => sha256Round st kw.1 kw.2) H
  ⟨w32 (H.a + st.a), w32 (H.b + st.b), w32 (H.c + st.c), w32 (H.d + st.d),
   w32 (H.e + st.e), w32 (H.f + st.f), w32 (H.g + st.g), w32 (H.h + st.h)⟩

/-- SHA-256 padding: append `0x80`, zeros to 56 mod 64, then the 64-bit
big-endian bit length. -/
def sha256Pad (msg : List Nat) : List Nat :=
  let zeros := (120 - (msg.length + 1) % 64) % 64
  msg ++ [128] ++ List.replicate zeros 0 ++ beBytes 8 (8 * msg.length)

/-- SHA-256 of a byte string, as 32 bytes. -/
def sha256 (msg : List Nat) : List Nat :=
  let H := (chunks16 (toWords (sha256Pad msg))).foldl compressBlock sha256Init
  beBytes 4 H.a ++ beBytes 4 H.b ++ beBytes 4 H.c ++ beBytes 4 H.d ++
  beBytes 4 H.e ++ beBytes 4 H.f ++ beBytes 4 H.g ++ beBytes 4 H.h

/-- UTF-8 encoding of one code point. -/
def utf8EncodeCp (c : Nat) : List Nat :=
  if c < 128 then [c]
  else if c < 2048 then [192 + c / 64, 128 + c % 64]
  else if c < 65536 then [224 + c / 4096, 128 + c / 64 % 64, 128 + c % 64]
  else [240 + c / 262144, 128 + c / 4096 % 64, 128 + c / 64 % 64, 128 + c % 64]

/-- Python `str.encode()`: the UTF-8 bytes of a string. -/
def strToBytes (s : String) : List Nat :=
  s.data.foldr (fun c acc => utf8EncodeCp c.toNat ++ acc) []

/-- HMAC key preprocessing: hash keys longer than the 64-byte block, then
zero-pad to the block size. -/
def hmacKeyBlock (key : List Nat) : List Nat :=
  let k0 := if 64 < key.length then sha256 key else key
  k0 ++ List.replicate (64 - k0.length) 0

/-- HMAC-SHA256 of `msg` under `key` (RFC 2104), as 32 bytes. -/
def hmacSha256 (key msg : List Nat) : List Nat :=
  let k := hmacKeyBlock key
  sha256 ((k.map fun b => b ^^^ 92) ++ sha256 ((k.map fun b => b ^^^ 54) ++ msg))

/-- A nibble as a lowercase hexadecimal character. -/
def hexDigit (n : Nat) : Char :=
  if n < 10 then Char.ofNat (48 + n) else Char.ofNat (87 + n)

/-- Bytes as a lowercase hexadecimal string (Python's `.hexdigest()`). -/
def toHexLower (bytes : List Nat) : String :=
  String.mk (bytes.foldr (fun b acc => hexDigit (b / 16) :: hexDigit (b % 16) :: acc) [])

/-- Embeds `hmac.new(secret.encode(), raw_body, hashlib.sha256).hexdigest()`
(main.py 89-93). -/
def hmac_sha256_hexdigest (secret : String) (raw_body : List Nat) : String :=
  toHexLower (hmacSha256 (strToBytes secret) raw_body)

/-! ### Signature verification and the HTTP handler -/

/-- Embeds `constant_time_compare` (main.py 77-78): `hmac.compare_digest` of the two
strings' encodings, which decides exactly string equality (the timing
behaviour is not modelled). -/
def constant_time_compare (a b : String) : Bool :=
  a == b

/-- Outcome of `verify_signature`: success, or one of the two
`HTTPException(401, ...)` raises. -/
inductive SigResult where
  | ok
  | missingSignature
  | invalidSignature
deriving DecidableEq, Repr

/-- Embeds `verify_signature` (main.py 81-96): skip when no secret is configured,
reject a falsy signature, otherwise compare against the HMAC hexdigest. -/
def verify_signature (secret : String) (raw_body : List Nat)
    (provided_sig : Option String) : SigResult :=
  if secret == "" then
    SigResult.ok
  else if !truthy provided_sig then
    SigResult.missingSignature
  else if constant_time_compare (strOf provided_sig) (hmac_sha256_hexdigest secret raw_body) then
    SigResult.ok
  else
    SigResult.invalidSignature

/-- A response body: the success acknowledgement `{"ok": true}` or an
HTTPException detail. -/
inductive ResponseBody where
  | okTrue
  | detail (msg : String)
deriving DecidableEq, Repr

/-- An HTTP response: status code and body. -/
structure HttpResponse where
  status : Nat
  body : ResponseBody
deriving DecidableEq, Repr

/-- Embeds `feexpay_webhook` (main.py 181-204). The signature header is the first
truthy of the two header values (main.py 185-188); `parsed` is the outcome of
`request.json()` (`none` = parse failure); `reconcile` is the invoked
reconciler, returning its outcome and access trace — the handler catches its
exceptions exactly as the source's try/except does. The result pairs the
response with the trace of collaborator accesses performed. -/
def feexpay_webhook (secret : String) (raw_body : List Nat)
    (sig_feexpay sig_generic : Option String) (parsed : Option Payload)
    (reconcile : Payload → Except PyExc (List Order) × List DbOp) :
    HttpResponse × List DbOp :=
  let signature := pyOr sig_feexpay sig_generic
  match verify_signature secret raw_body signature with
  | SigResult.missingSignature => (⟨401, ResponseBody.detail "Missing signature header"⟩, [])
  | SigResult.invalidSignature => (⟨401, ResponseBody.detail "Invalid signature"⟩, [])
  | SigResult.ok =>
    match parsed with
    | none => (⟨400, ResponseBody.detail "Invalid JSON body"⟩, [])
    | some payload =>
      match reconcile payload with
      | (Except.error (PyExc.httpException st d), ops) => (⟨st, ResponseBody.detail d⟩, ops)
      | (Except.error (PyExc.otherException m), ops) => (⟨500, ResponseBody.detail m⟩, ops)
      | (Except.ok _, ops) => (⟨200, ResponseBody.okTrue⟩, ops)

/-! ### Helper lemmas -/

/-- Boolean `a != b` is `true` exactly when `a ≠ b` (strings). -/
theorem bne_true_of_ne {a b : String} (h : a ≠ b) : (a != b) = true := by
  simp [bne_iff_ne, h]

/-- A truthy optional string is `some` of a non-empty string. -/
theorem truthy_some {s : String} (h : s ≠ "") : truthy (some s) = true := by
  simp [truthy, bne_iff_ne, h]

/-! ### Claim theorems -/

/-- Claim C3: the status mapper is a total pure function into
{pending, confirmed, failed}: after uppercasing, SUCCESS/SUCCESSFUL/COMPLETED
map to confirmed, FAIL/FAILED/CANCELED/CANCELLED map to failed, and every
other input (the empty string included) maps to pending. -/
theorem claim_C3_status_mapper_total (s : String) :
    (map_payment_status s = "pending" ∨ map_payment_status s = "confirmed" ∨
      map_payment_status s = "failed") ∧
    (str_upper s ∈ (["SUCCESS", "SUCCESSFUL", "COMPLETED"] : List String) →
      map_payment_status s = "confirmed") ∧
    (str_upper s ∈ (["FAIL", "FAILED", "CANCELED", "CANCELLED"] : List String) →
      map_payment_status s = "failed") ∧
    (str_upper s ∉ (["SUCCESS", "SUCCESSFUL", "COMPLETED",
                   "FAIL", "FAILED", "CANCELED", "CANCELLED"] : List String) →
      map_payment_status s = "pending") := by
  refine ⟨?_, ?_, ?_, ?_⟩
  · unfold map_payment_status
    split
    · right; left; rfl
    · split
      · right; right; rfl
      · left; rfl
  · intro h
    unfold map_payment_status
    rw [if_pos]
    exact List.elem_iff.mpr h
  · intro h
    have hnc : str_upper s ∉ (["SUCCESS", "SUCCESSFUL", "COMPLETED"] : List String) := by
      intro hc
      simp only [List.mem_cons, List.not_mem_nil, or_false] at h hc
      rcases hc with h1 | h1 | h1 <;> rcases h with h2 | h2 | h2 | h2 <;>
        rw [h1] at h2 <;> exact absurd h2 (by decide)
    unfold map_payment_status
    rw [if_neg, if_pos]
    · exact List.elem_iff.mpr h
    · intro hc
      exact hnc (List.elem_iff.mp hc)
  · intro h
    unfold map_payment_status
    rw [if_neg, if_neg]
    · intro hc
      have hm := List.elem_iff.mp hc
      apply h
      simp only [List.mem_cons, List.not_mem_nil, or_false] at hm ⊢
      rcases hm with h1 | h1 | h1 | h1 <;> simp [h1]
    · intro hc
      have hm := List.elem_iff.mp hc
      apply h
      simp only [List.mem_cons, List.not_mem_nil, or_false] at hm ⊢
      rcases hm with h1 | h1 | h1 <;> simp [h1]

/-- Witness for C3 at concrete inputs. -/
theorem claim_C3_witness :
    map_payment_status "Success" = "confirmed" ∧
    map_payment_status "cancelled" = "failed" ∧
    map_payment_status "" = "pending" ∧
    map_payment_status "REFUNDED" = "pending" :=
  ⟨(claim_C3_status_mapper_total "Success").2.1 (by simp [str_upper]),
   (claim_C3_status_mapper_total "cancelled").2.2.1 (by simp [str_upper]),
   (claim_C3_status_mapper_total "").2.2.2 (by simp [str_upper]),
   (claim_C3_status_mapper_total "REFUNDED").2.2.2 (by simp [str_upper])⟩

/-- Claim C4: with no configured secret, signature verification succeeds for
every body and every (possibly absent) provided signature. -/
theorem claim_C4_no_secret_skips_verification (raw_body : List Nat)
    (provided_sig : Option String) :
    verify_signature "" raw_body provided_sig = SigResult.ok := by
  simp [verify_signature]

/-- Witness for C4: a concrete body and signature pass with no secret. -/
theorem claim_C4_witness :
    verify_signature "" [1, 2, 3] (some "not-a-signature") = SigResult.ok :=
  claim_C4_no_secret_skips_verification [1, 2, 3] (some "not-a-signature")

/-- Claim C5: with a configured secret, an absent signature fails as missing;
a supplied signature verifies exactly when it equals the lowercase HMAC-SHA256
hexdigest of the raw body under the secret, and any mismatch fails as invalid. -/
theorem claim_C5_secret_requires_matching_hmac (secret : String) (raw_body : List Nat)
    (hs : secret ≠ "") :
    verify_signature secret raw_body none = SigResult.missingSignature ∧
    ∀ s, s ≠ "" →
      ((verify_signature secret raw_body (some s) = SigResult.ok ↔
        s = hmac_sha256_hexdigest secret raw_body) ∧
       (s ≠ hmac_sha256_hexdigest secret raw_body →
        verify_signature secret raw_body (some s) = SigResult.invalidSignature)) := by
  have hbe : (secret == "") = false := by simp [hs]
  constructor
  · simp [verify_signature, hbe, truthy]
  · intro s hsne
    have ht : truthy (some s) = true := truthy_some hsne
    by_cases heq : s = hmac_sha256_hexdigest secret raw_body
    · subst heq
      refine ⟨⟨fun _ => rfl, fun _ => ?_⟩, fun hne => absurd rfl hne⟩
      simp [verify_signature, hbe, ht, constant_time_compare, strOf]
    · have hcmp : constant_time_compare s (hmac_sha256_hexdigest secret raw_body) = false := by
        simp [constant_time_compare, heq]
      refine ⟨⟨fun hok => ?_, fun he => absurd he heq⟩, fun _ => ?_⟩
      · simp [verify_signature, hbe, ht, strOf, hcmp] at hok
      · simp [verify_signature, hbe, ht, strOf, hcmp]

set_option maxRecDepth 400000 in
/-- Witness for C5: a concrete secret and body, with the matching digest
accepted, a wrong signature rejected, and an absent signature missing. -/
theorem claim_C5_witness :
    verify_signature "k" [7] none = SigResult.missingSignature ∧
    verify_signature "k" [7] (some (hmac_sha256_hexdigest "k" [7])) = SigResult.ok ∧
    verify_signature "k" [7] (some "deadbeef") = SigResult.invalidSignature :=
  ⟨(claim_C5_secret_requires_matching_hmac "k" [7] (by decide)).1,
   ((claim_C5_secret_requires_matching_hmac "k" [7] (by decide)).2
      (hmac_sha256_hexdigest "k" [7]) (by decide)).1.mpr rfl,
   ((claim_C5_secret_requires_matching_hmac "k" [7] (by decide)).2
      "deadbeef" (by decide)).2 (by decide)⟩

/-- Claim C2: a payload whose two extracted identifiers are both falsy is
rejected by the reconciler with `HTTPException(400, "transaction_id or
order_number is required")`, with an empty access trace (no lookup, update or
insert); through the handler this surfaces as a 400 response. -/
theorem claim_C2_missing_identifiers_rejected (p : Payload)
    (h1 : truthy (txIdOf p) = false) (h2 : truthy (orderRefOf p) = false) :
    (∀ db, upsert_order p db =
      (Except.error (PyExc.httpException 400 "transaction_id or order_number is required"),
       [])) ∧
    (∀ db raw_body, feexpay_webhook "" raw_body none none (some p)
        (fun q => upsert_order q db) =
      (⟨400, ResponseBody.detail "transaction_id or order_number is required"⟩, [])) := by
  have hup : ∀ db : List Order, upsert_order p db =
      (Except.error (PyExc.httpException 400 "transaction_id or order_number is required"),
       []) := by
    intro db
    simp [upsert_order, h1, h2]
  refine ⟨hup, fun db raw_body => ?_⟩
  simp [feexpay_webhook, verify_signature, pyOr, truthy, hup db]

/-- Witness for C2: the empty payload is rejected with no persistence access. -/
theorem claim_C2_witness :
    upsert_order ⟨none, none, none, none, none, none, none⟩ [] =
      (Except.error (PyExc.httpException 400 "transaction_id or order_number is required"),
       []) :=
  (claim_C2_missing_identifiers_rejected ⟨none, none, none, none, none, none, none⟩
    rfl rfl).1 []

/-- Claim C6: the handler processes stages in order and maps each failure to
its distinct response: 401 on signature failure with the specific reason and
an empty access trace (the reconciler is never invoked — the response does not
depend on `reconcile` at all); 400 "Invalid JSON body" on parse failure, again
with no access; the reconciler's own `HTTPException` re-raised with its status
and message (400 for a validation error); 500 with the failure's message on
any other reconciler failure; and 200 `{ok: true}` on success. -/
theorem claim_C6_handler_stage_dispatch (secret : String) (raw_body : List Nat)
    (sig1 sig2 : Option String) (parsed : Option Payload)
    (reconcile : Payload → Except PyExc (List Order) × List DbOp) :
    (verify_signature secret raw_body (pyOr sig1 sig2) = SigResult.missingSignature →
      feexpay_webhook secret raw_body sig1 sig2 parsed reconcile =
        (⟨401, ResponseBody.detail "Missing signature header"⟩, [])) ∧
    (verify_signature secret raw_body (pyOr sig1 sig2) = SigResult.invalidSignature →
      feexpay_webhook secret raw_body sig1 sig2 parsed reconcile =
        (⟨401, ResponseBody.detail "Invalid signature"⟩, [])) ∧
    (verify_signature secret raw_body (pyOr sig1 sig2) = SigResult.ok → parsed = none →
      feexpay_webhook secret raw_body sig1 sig2 parsed reconcile =
        (⟨400, ResponseBody.detail "Invalid JSON body"⟩, [])) ∧
    (∀ p st d ops, verify_signature secret raw_body (pyOr sig1 sig2) = SigResult.ok →
      parsed = some p → reconcile p = (Except.error (PyExc.httpException st d), ops) →
      feexpay_webhook secret raw_body sig1 sig2 parsed reconcile =
        (⟨st, ResponseBody.detail d⟩, ops)) ∧
    (∀ p m ops, verify_signature secret raw_body (pyOr sig1 sig2) = SigResult.ok →
      parsed = some p → reconcile p = (Except.error (PyExc.otherException m), ops) →
      feexpay_webhook secret raw_body sig1 sig2 parsed reconcile =
        (⟨500, ResponseBody.detail m⟩, ops)) ∧
    (∀ p db' ops, verify_signature secret raw_body (pyOr sig1 sig2) = SigResult.ok →
      parsed = some p → reconcile p = (Except.ok db', ops) →
      feexpay_webhook secret raw_body sig1 sig2 parsed reconcile =
        (⟨200, ResponseBody.okTrue⟩, ops)) := by
  refine ⟨fun hv => ?_, fun hv => ?_, fun hv hp => ?_,
          fun p st d ops hv hp hr => ?_, fun p m ops hv hp hr => ?_,
          fun p db' ops hv hp hr => ?_⟩
  · simp [feexpay_webhook, hv]
  · simp [feexpay_webhook, hv]
  · simp [feexpay_webhook, hv, hp]
  · simp [feexpay_webhook, hv, hp, hr]
  · simp [feexpay_webhook, hv, hp, hr]
  · simp [feexpay_webhook, hv, hp, hr]

/-- Witness for C6: with a configured secret and no signature headers the
response is 401 and the reconciler (here one that would insert) is not
reached. -/
theorem claim_C6_witness :
    feexpay_webhook "k" [7] none none
      (some ⟨none, some "R1", none, none, none, none, none⟩)
      (fun q => upsert_order q []) =
      (⟨401, ResponseBody.detail "Missing signature header"⟩, []) :=
  (claim_C6_handler_stage_dispatch "k" [7] none none
      (some ⟨none, some "R1", none, none, none, none, none⟩)
      (fun q => upsert_order q [])).1 (by decide)

/-- Pointwise invariance of a projection lifts through `List.map`. -/
theorem map_proj_eq {α β : Type} (l : List α) (f : α → α) (pr : α → β)
    (h : ∀ a, pr (f a) = pr a) : (l.map f).map pr = l.map pr := by
  induction l with
  | nil => rfl
  | cons a l ih => simp [h, ih]

/-- Applying `List.any` after mapping a function the predicate ignores is unchanged. -/
theorem any_map_eq {α : Type} (l : List α) (f : α → α) (q : α → Bool)
    (h : ∀ a, q (f a) = q a) : (l.map f).any q = l.any q := by
  induction l with
  | nil => rfl
  | cons a l ih => simp [h, ih]

/-- Mapping a pointwise-idempotent function twice equals mapping it once. -/
theorem map_map_idem {α : Type} (l : List α) (f : α → α) (h : ∀ a, f (f a) = f a) :
    (l.map f).map f = l.map f := by
  induction l with
  | nil => rfl
  | cons a l ih => simp [h, ih]

/-- The per-row function of the update-by-order_number branch leaves
`order_number` untouched. -/
theorem order_branch_preserves_order_number (p : Payload) (v : String) (o : Order) :
    (if orderMatches v o then update_fields_by_order p o else o).order_number =
      o.order_number := by
  split <;> rfl

/-- The per-row function of the update-by-order_number branch leaves
`total_amount` and `notes` untouched. -/
theorem order_branch_preserves_rest (p : Payload) (v : String) (o : Order) :
    (if orderMatches v o then update_fields_by_order p o else o).total_amount =
      o.total_amount ∧
    (if orderMatches v o then update_fields_by_order p o else o).notes = o.notes := by
  split <;> exact ⟨rfl, rfl⟩

/-- The per-row function of the update-by-transaction_id branch leaves
`order_number`, `transaction_id`, `total_amount` and `notes` untouched. -/
theorem tx_branch_preserves (p : Payload) (t : String) (o : Order) :
    (if txMatches t o then update_fields_by_tx p o else o).order_number = o.order_number ∧
    (if txMatches t o then update_fields_by_tx p o else o).transaction_id = o.transaction_id ∧
    (if txMatches t o then update_fields_by_tx p o else o).total_amount = o.total_amount ∧
    (if txMatches t o then update_fields_by_tx p o else o).notes = o.notes := by
  split <;> exact ⟨rfl, rfl, rfl, rfl⟩

/-- The per-row function of the update-by-order_number branch is idempotent. -/
theorem order_branch_idem (p : Payload) (v : String) (o : Order) :
    (if orderMatches v (if orderMatches v o then update_fields_by_order p o else o) then
       update_fields_by_order p (if orderMatches v o then update_fields_by_order p o else o)
     else (if orderMatches v o then update_fields_by_order p o else o)) =
    (if orderMatches v o then update_fields_by_order p o else o) := by
  by_cases h : orderMatches v o
  · have h2 : orderMatches v (update_fields_by_order p o) = true := by
      simpa [orderMatches, update_fields_by_order] using h
    simp [h, h2, update_fields_by_order]
  · simp [h]

/-- The per-row function of the update-by-transaction_id branch is idempotent. -/
theorem tx_branch_idem (p : Payload) (t : String) (o : Order) :
    (if txMatches t (if txMatches t o then update_fields_by_tx p o else o) then
       update_fields_by_tx p (if txMatches t o then update_fields_by_tx p o else o)
     else (if txMatches t o then update_fields_by_tx p o else o)) =
    (if txMatches t o then update_fields_by_tx p o else o) := by
  by_cases h : txMatches t o
  · have h2 : txMatches t (update_fields_by_tx p o) = true := by
      simpa [txMatches, update_fields_by_tx] using h
    simp [h, h2, update_fields_by_tx]
  · simp [h]

/-- When the order_number lookup hits, `upsert_order` performs exactly that
select and update and returns the mapped table. -/
theorem upsert_order_order_hit (p : Payload) (db : List Order) (v : String)
    (hv : orderRefOf p = some v) (hv2 : v ≠ "")
    (hany : db.any (orderMatches v) = true) :
    upsert_order p db =
      (Except.ok (db.map fun o => if orderMatches v o then update_fields_by_order p o else o),
       [DbOp.selectByOrderNumber v, DbOp.updateByOrderNumber v]) := by
  have hb : (v != "") = true := bne_true_of_ne hv2
  simp [upsert_order, hv, hb, hany, truthy_some hv2]

/-- When validation passes but the order_number lookup misses, `upsert_order`
defers to step 2 after a trace of lookups only. -/
theorem upsert_order_no_order_hit (p : Payload) (db : List Order)
    (hmiss : order_lookup_hit p db = false)
    (hval : truthy (txIdOf p) = true ∨ truthy (orderRefOf p) = true) :
    ∃ ops0 : List DbOp, (∀ op ∈ ops0, op.isWrite = false) ∧
      upsert_order p db = upsert_step2 p db ops0 := by
  rcases ho : orderRefOf p with _ | v
  · have htx : truthy (txIdOf p) = true := by
      rcases hval with h | h
      · exact h
      · rw [ho] at h; simp [truthy] at h
    exact ⟨[], by simp, by simp [upsert_order, ho, htx]⟩
  · by_cases hb : v = ""
    · subst hb
      have htx : truthy (txIdOf p) = true := by
        rcases hval with h | h
        · exact h
        · rw [ho] at h; simp [truthy] at h
      exact ⟨[], by simp, by simp [upsert_order, ho, htx]⟩
    · have hbv : (v != "") = true := bne_true_of_ne hb
      have hany : db.any (orderMatches v) = false := by
        have h2 := hmiss
        rw [order_lookup_hit, ho] at h2
        simpa [hbv] using h2
      refine ⟨[DbOp.selectByOrderNumber v], by simp [DbOp.isWrite], ?_⟩
      simp [upsert_order, ho, hbv, hany, truthy]

/-- When the transaction_id lookup hits, step 2 performs that select and
update and returns the mapped table. -/
theorem upsert_step2_tx_hit (p : Payload) (db : List Order) (ops : List DbOp)
    (t : String) (ht : txIdOf p = some t) (ht2 : t ≠ "")
    (hany : db.any (txMatches t) = true) :
    upsert_step2 p db ops =
      (Except.ok (db.map fun o => if txMatches t o then update_fields_by_tx p o else o),
       ops ++ [DbOp.selectByTransactionId t, DbOp.updateByTransactionId t]) := by
  have hb : (t != "") = true := bne_true_of_ne ht2
  simp [upsert_step2, ht, hb, hany]

/-- When the transaction_id lookup misses, step 2 falls through to the insert,
adding at most one further lookup to the trace. -/
theorem upsert_step2_tx_miss (p : Payload) (db : List Order) (ops : List DbOp)
    (hmiss : tx_lookup_hit p db = false) :
    ∃ ops1 : List DbOp, (∀ op ∈ ops1, op.isWrite = false) ∧
      upsert_step2 p db ops =
        (Except.ok (db ++ [insert_record p]), (ops ++ ops1) ++ [DbOp.insert]) := by
  rcases ht : txIdOf p with _ | t
  · exact ⟨[], by simp, by simp [upsert_step2, upsert_step3, ht]⟩
  · by_cases hb : t = ""
    · subst hb
      exact ⟨[], by simp, by simp [upsert_step2, upsert_step3, ht]⟩
    · have hbt : (t != "") = true := bne_true_of_ne hb
      have hany : db.any (txMatches t) = false := by
        have := hmiss
        rw [tx_lookup_hit, ht] at this
        simpa [hbt] using this
      refine ⟨[DbOp.selectByTransactionId t], by simp [DbOp.isWrite], ?_⟩
      simp [upsert_step2, upsert_step3, ht, hbt, hany]

/-- Claim C1: for a payload with at least one truthy identifier the reconciler
follows the ordered three-branch resolution, first match winning: an
order_number hit updates the matching rows (transaction_id,
payment_reference = orderRef, payment_provider, raw payment_status, mapped
status) and terminates; otherwise a transaction_id hit updates the matching
rows (payment_reference = orderRef, payment_provider, raw payment_status,
mapped status) and terminates; otherwise a single record is inserted
populating order_number, transaction_id, payment_reference,
payment_provider, payment_status, status, total_amount from the payload
amount, and the fixed provenance note. -/
theorem claim_C1_three_branch_resolution (p : Payload) (db : List Order)
    (hval : truthy (txIdOf p) = true ∨ truthy (orderRefOf p) = true) :
    (∀ v, orderRefOf p = some v → v ≠ "" → db.any (orderMatches v) = true →
      upsert_order p db =
        (Except.ok (db.map fun o => if orderMatches v o then update_fields_by_order p o else o),
         [DbOp.selectByOrderNumber v, DbOp.updateByOrderNumber v])) ∧
    (∀ t, order_lookup_hit p db = false → txIdOf p = some t → t ≠ "" →
        db.any (txMatches t) = true →
      (upsert_order p db).1 =
        Except.ok (db.map fun o => if txMatches t o then update_fields_by_tx p o else o) ∧
      DbOp.updateByTransactionId t ∈ (upsert_order p db).2) ∧
    (order_lookup_hit p db = false → tx_lookup_hit p db = false →
      (upsert_order p db).1 = Except.ok (db ++ [insert_record p]) ∧
      DbOp.insert ∈ (upsert_order p db).2) := by
  refine ⟨fun v hv hv2 hany => upsert_order_order_hit p db v hv hv2 hany,
          fun t hom ht ht2 hany => ?_, fun hom htm => ?_⟩
  · obtain ⟨ops0, _, heq⟩ := upsert_order_no_order_hit p db hom hval
    rw [heq, upsert_step2_tx_hit p db ops0 t ht ht2 hany]
    exact ⟨rfl, by simp⟩
  · obtain ⟨ops0, _, heq⟩ := upsert_order_no_order_hit p db hom hval
    obtain ⟨ops1, _, heq2⟩ := upsert_step2_tx_miss p db ops0 htm
    rw [heq, heq2]
    exact ⟨rfl, by simp⟩

/-- Witness for C1: a two-row table; a payload carrying an order_number that
matches the first row takes the update-by-order_number branch. -/
theorem claim_C1_witness :
    upsert_order
      ⟨some "T9", none, some "A100", some "SUCCESS", none, none, some 5⟩
      [⟨some "A100", none, none, none, none, some "pending", some 5, none⟩,
       ⟨some "B200", none, none, none, none, some "pending", none, none⟩] =
      (Except.ok
        [⟨some "A100", some "T9", some "A100", some "feexpay", some "SUCCESS",
          some "confirmed", some 5, none⟩,
         ⟨some "B200", none, none, none, none, some "pending", none, none⟩],
       [DbOp.selectByOrderNumber "A100", DbOp.updateByOrderNumber "A100"]) := by
  rw [(claim_C1_three_branch_resolution
      ⟨some "T9", none, some "A100", some "SUCCESS", none, none, some 5⟩
      [⟨some "A100", none, none, none, none, some "pending", some 5, none⟩,
       ⟨some "B200", none, none, none, none, some "pending", none, none⟩]
      (Or.inl (by decide))).1 "A100" (by decide) (by decide) (by decide)]
  rfl

/-- Claim C7: the reconciler performs at most one write (one update or one
insert) per notification, and a notification with neither identifier truthy
is rejected before any persistence access (its trace is empty). -/
theorem claim_C7_at_most_one_write (p : Payload) (db : List Order) :
    countWrites (upsert_order p db).2 ≤ 1 ∧
    (truthy (txIdOf p) = false → truthy (orderRefOf p) = false →
      (upsert_order p db).2 = []) := by
  by_cases hboth : truthy (txIdOf p) = false ∧ truthy (orderRefOf p) = false
  · rcases hboth with ⟨h1, h2⟩
    constructor
    · simp [upsert_order, h1, h2, countWrites]
    · intro _ _
      simp [upsert_order, h1, h2]
  · have hval : truthy (txIdOf p) = true ∨ truthy (orderRefOf p) = true := by
      cases htx : truthy (txIdOf p) <;> cases href : truthy (orderRefOf p) <;> simp_all
    refine ⟨?_, fun h1 h2 => absurd ⟨h1, h2⟩ hboth⟩
    by_cases hoh : order_lookup_hit p db = true
    · rcases ho : orderRefOf p with _ | v
      · rw [order_lookup_hit, ho] at hoh
        exact absurd hoh (by simp)
      · rw [order_lookup_hit, ho] at hoh
        have hbv := (Bool.and_eq_true _ _).mp hoh
        have hv2 : v ≠ "" := by simpa [bne_iff_ne] using hbv.1
        rw [upsert_order_order_hit p db v ho hv2 hbv.2]
        exact le_of_eq rfl
    · obtain ⟨ops0, hw0, heq⟩ :=
        upsert_order_no_order_hit p db (by simpa using hoh) hval
      have h0 : List.countP (fun op => DbOp.isWrite op) ops0 = 0 :=
        List.countP_eq_zero.mpr (fun a ha => by simp [hw0 a ha])
      by_cases hth : tx_lookup_hit p db = true
      · rcases ht : txIdOf p with _ | t
        · rw [tx_lookup_hit, ht] at hth
          exact absurd hth (by simp)
        · rw [tx_lookup_hit, ht] at hth
          have hbt := (Bool.and_eq_true _ _).mp hth
          have ht2 : t ≠ "" := by simpa [bne_iff_ne] using hbt.1
          rw [heq, upsert_step2_tx_hit p db ops0 t ht ht2 hbt.2]
          simp [countWrites, List.countP_append, h0]
          rfl
      · obtain ⟨ops1, hw1, heq2⟩ := upsert_step2_tx_miss p db ops0 (by simpa using hth)
        have h1 : List.countP (fun op => DbOp.isWrite op) ops1 = 0 :=
          List.countP_eq_zero.mpr (fun a ha => by simp [hw1 a ha])
        rw [heq, heq2]
        simp [countWrites, List.countP_append, h0, h1]
        rfl

/-- Witness for C7: the payload carrying only a reference produces exactly one
write on an empty table, and the empty payload produces an empty trace. -/
theorem claim_C7_witness :
    countWrites (upsert_order ⟨none, some "R1", none, none, none, none, none⟩ []).2 ≤ 1 ∧
    (upsert_order ⟨none, none, none, none, none, none, none⟩ []).2 = [] :=
  ⟨(claim_C7_at_most_one_write ⟨none, some "R1", none, none, none, none, none⟩ []).1,
   (claim_C7_at_most_one_write ⟨none, none, none, none, none, none, none⟩ []).2 rfl rfl⟩

/-- Claim C9: the two update branches write exactly their listed fields.
Per row, the order_number update writes exactly {transaction_id,
payment_reference, payment_provider, payment_status, status} and the
transaction_id update exactly {payment_reference, payment_provider,
payment_status, status}; consequently, across any non-inserting run of the
reconciler, every row keeps its order_number, total_amount and notes, and a
run whose write was an update-by-transaction_id also keeps every row's
transaction_id. -/
theorem claim_C9_update_frame (p : Payload) :
    (∀ o : Order,
      (update_fields_by_order p o).order_number = o.order_number ∧
      (update_fields_by_order p o).total_amount = o.total_amount ∧
      (update_fields_by_order p o).notes = o.notes ∧
      (update_fields_by_order p o).transaction_id = txIdOf p ∧
      (update_fields_by_order p o).payment_reference = orderRefOf p ∧
      (update_fields_by_order p o).payment_provider = some (providerNameOf p) ∧
      (update_fields_by_order p o).payment_status = providerStatusOf p ∧
      (update_fields_by_order p o).status = some (statusAppOf p)) ∧
    (∀ o : Order,
      (update_fields_by_tx p o).order_number = o.order_number ∧
      (update_fields_by_tx p o).transaction_id = o.transaction_id ∧
      (update_fields_by_tx p o).total_amount = o.total_amount ∧
      (update_fields_by_tx p o).notes = o.notes ∧
      (update_fields_by_tx p o).payment_reference = orderRefOf p ∧
      (update_fields_by_tx p o).payment_provider = some (providerNameOf p) ∧
      (update_fields_by_tx p o).payment_status = providerStatusOf p ∧
      (update_fields_by_tx p o).status = some (statusAppOf p)) ∧
    (∀ db db', (upsert_order p db).1 = Except.ok db' →
      DbOp.insert ∉ (upsert_order p db).2 →
      (db'.map Order.order_number = db.map Order.order_number ∧
       db'.map Order.total_amount = db.map Order.total_amount ∧
       db'.map Order.notes = db.map Order.notes) ∧
      ((∃ t, DbOp.updateByTransactionId t ∈ (upsert_order p db).2) →
        db'.map Order.transaction_id = db.map Order.transaction_id)) := by
  refine ⟨fun o => ⟨rfl, rfl, rfl, rfl, rfl, rfl, rfl, rfl⟩,
          fun o => ⟨rfl, rfl, rfl, rfl, rfl, rfl, rfl, rfl⟩,
          fun db db' hok hni => ?_⟩
  by_cases hboth : truthy (txIdOf p) = false ∧ truthy (orderRefOf p) = false
  · rw [upsert_order] at hok
    simp [hboth.1, hboth.2] at hok
  · have hval : truthy (txIdOf p) = true ∨ truthy (orderRefOf p) = true := by
      cases htx : truthy (txIdOf p) <;> cases href : truthy (orderRefOf p) <;> simp_all
    by_cases hoh : order_lookup_hit p db = true
    · rcases ho : orderRefOf p with _ | v
      · rw [order_lookup_hit, ho] at hoh
        exact absurd hoh (by simp)
      · rw [order_lookup_hit, ho] at hoh
        have hbv := (Bool.and_eq_true _ _).mp hoh
        have hv2 : v ≠ "" := by simpa [bne_iff_ne] using hbv.1
        rw [upsert_order_order_hit p db v ho hv2 hbv.2] at hok hni ⊢
        simp only [Except.ok.injEq] at hok
        subst hok
        refine ⟨⟨map_proj_eq db _ _ (order_branch_preserves_order_number p v),
                 map_proj_eq db _ _ (fun o => (order_branch_preserves_rest p v o).1),
                 map_proj_eq db _ _ (fun o => (order_branch_preserves_rest p v o).2)⟩,
                fun h => ?_⟩
        rcases h with ⟨t, hmem⟩
        simp at hmem
    · obtain ⟨ops0, hw0, heq⟩ :=
        upsert_order_no_order_hit p db (by simpa using hoh) hval
      by_cases hth : tx_lookup_hit p db = true
      · rcases ht : txIdOf p with _ | t
        · rw [tx_lookup_hit, ht] at hth
          exact absurd hth (by simp)
        · rw [tx_lookup_hit, ht] at hth
          have hbt := (Bool.and_eq_true _ _).mp hth
          have ht2 : t ≠ "" := by simpa [bne_iff_ne] using hbt.1
          rw [heq, upsert_step2_tx_hit p db ops0 t ht ht2 hbt.2] at hok hni ⊢
          simp only [Except.ok.injEq] at hok
          subst hok
          exact ⟨⟨map_proj_eq db _ _ (fun o => (tx_branch_preserves p t o).1),
                  map_proj_eq db _ _ (fun o => (tx_branch_preserves p t o).2.2.1),
                  map_proj_eq db _ _ (fun o => (tx_branch_preserves p t o).2.2.2)⟩,
                 fun _ => map_proj_eq db _ _ (fun o => (tx_branch_preserves p t o).2.1)⟩
      · obtain ⟨ops1, hw1, heq2⟩ := upsert_step2_tx_miss p db ops0 (by simpa using hth)
        rw [heq, heq2] at hni
        exact absurd (by simp) hni

/-- Witness for C9: an update-by-transaction_id run keeps order_number,
transaction_id, total_amount and notes of the only row. -/
theorem claim_C9_witness :
    ([⟨some "A1", some "T1", none, some "prov", some "FAILED", some "failed",
       none, none⟩] : List Order).map Order.order_number =
      ([⟨some "A1", some "T1", none, none, none, none, none, none⟩] :
        List Order).map Order.order_number ∧
    ([⟨some "A1", some "T1", none, some "prov", some "FAILED", some "failed",
       none, none⟩] : List Order).map Order.transaction_id =
      ([⟨some "A1", some "T1", none, none, none, none, none, none⟩] :
        List Order).map Order.transaction_id := by
  have U := (claim_C9_update_frame
      ⟨some "T1", none, none, some "FAILED", none, some "prov", none⟩).2.2
    [⟨some "A1", some "T1", none, none, none, none, none, none⟩]
    [⟨some "A1", some "T1", none, some "prov", some "FAILED", some "failed",
      none, none⟩] rfl (by decide)
  exact ⟨U.1.1, U.2 ⟨"T1", by decide⟩⟩

/-- Claim C10: when transaction_id and order_number are both absent and
reference is a non-empty string, both extracted identifiers take the
reference value; validation passes and the order_number lookup runs first
with that value; and when neither lookup matches, the inserted record carries
that single value as order_number, transaction_id and payment_reference. -/
theorem claim_C10_reference_fallback (p : Payload) (r : String) (db : List Order)
    (h1 : p.transaction_id = none) (h2 : p.order_number = none)
    (h3 : p.reference = some r) (hr : r ≠ "") :
    txIdOf p = some r ∧ orderRefOf p = some r ∧
    (upsert_order p db).2.head? = some (DbOp.selectByOrderNumber r) ∧
    (db.any (orderMatches r) = false → db.any (txMatches r) = false →
      upsert_order p db =
        (Except.ok (db ++ [insert_record p]),
         [DbOp.selectByOrderNumber r, DbOp.selectByTransactionId r, DbOp.insert]) ∧
      (insert_record p).order_number = some r ∧
      (insert_record p).transaction_id = some r ∧
      (insert_record p).payment_reference = some r) := by
  have htx : txIdOf p = some r := by simp [txIdOf, pyOr, truthy, h1, h3]
  have horef : orderRefOf p = some r := by simp [orderRefOf, pyOr, truthy, h2, h3]
  have hb : (r != "") = true := bne_true_of_ne hr
  have hchar : ∀ hao : db.any (orderMatches r) = false,
      ∀ hat : db.any (txMatches r) = false,
      upsert_order p db =
        (Except.ok (db ++ [insert_record p]),
         [DbOp.selectByOrderNumber r, DbOp.selectByTransactionId r, DbOp.insert]) := by
    intro hao hat
    simp [upsert_order, horef, htx, hb, hao, hat, upsert_step2, upsert_step3,
      truthy_some hr]
  refine ⟨htx, horef, ?_, fun hao hat => ⟨hchar hao hat, ?_, ?_, ?_⟩⟩
  · by_cases hao : db.any (orderMatches r) = true
    · rw [upsert_order_order_hit p db r horef hr hao]
      rfl
    · have hao' : db.any (orderMatches r) = false := by simpa using hao
      by_cases hat : db.any (txMatches r) = true
      · simp [upsert_order, horef, htx, hb, hao', hat, upsert_step2,
          truthy_some hr]
      · have hat' : db.any (txMatches r) = false := by simpa using hat
        rw [hchar hao' hat']
        rfl
  · simp [insert_record, horef]
  · simp [insert_record, htx]
  · simp [insert_record, horef]

/-- Witness for C10: reference "R1" alone, on an empty table, inserts a record
keyed by "R1" in all three identifier columns. -/
theorem claim_C10_witness :
    upsert_order ⟨none, some "R1", none, none, none, none, none⟩ [] =
      (Except.ok [insert_record ⟨none, some "R1", none, none, none, none, none⟩],
       [DbOp.selectByOrderNumber "R1", DbOp.selectByTransactionId "R1",
        DbOp.insert]) ∧
    (insert_record ⟨none, some "R1", none, none, none, none, none⟩).order_number =
      some "R1" ∧
    (insert_record ⟨none, some "R1", none, none, none, none, none⟩).transaction_id =
      some "R1" :=
  have H := (claim_C10_reference_fallback
    ⟨none, some "R1", none, none, none, none, none⟩ "R1" []
    rfl rfl rfl (by decide)).2.2.2 rfl rfl
  ⟨H.1, H.2.1, H.2.2.1⟩

/-- A trace of lookups only never contains the insert op. -/
theorem insert_not_mem_of_writes_free (ops : List DbOp)
    (h : ∀ op ∈ ops, op.isWrite = false) : DbOp.insert ∉ ops := by
  intro hm
  have := h _ hm
  simp [DbOp.isWrite] at this

/-- The order_number lookup outcome is unchanged by an
update-by-transaction_id pass over the table. -/
theorem order_lookup_hit_tx_map (p : Payload) (db : List Order) (t : String) :
    order_lookup_hit p
      (db.map fun o => if txMatches t o then update_fields_by_tx p o else o) =
    order_lookup_hit p db := by
  rcases ho : orderRefOf p with _ | v
  · simp [order_lookup_hit, ho]
  · simp only [order_lookup_hit, ho]
    rw [any_map_eq db _ _ (fun o => by
      simp only [orderMatches]
      rw [(tx_branch_preserves p t o).1])]

/-- The order_number match predicate is invariant under its own branch's
per-row update. -/
theorem orderMatches_order_branch (p : Payload) (v : String) (o : Order) :
    orderMatches v (if orderMatches v o then update_fields_by_order p o else o) =
      orderMatches v o := by
  split <;> rfl

/-- The transaction_id match predicate is invariant under its own branch's
per-row update. -/
theorem txMatches_tx_branch (p : Payload) (t : String) (o : Order) :
    txMatches t (if txMatches t o then update_fields_by_tx p o else o) =
      txMatches t o := by
  split <;> rfl

/-- Claim C8: reconciliation is idempotent on updates — when the table has an
order matching the payload's identifiers, the run updates (inserts nothing),
and running the same payload again performs another non-inserting update that
leaves the table exactly as after the first run; no record is ever added. -/
theorem claim_C8_update_idempotence (p : Payload) (db : List Order)
    (h : order_lookup_hit p db = true ∨ tx_lookup_hit p db = true) :
    ∃ db1 : List Order,
      (upsert_order p db).1 = Except.ok db1 ∧
      DbOp.insert ∉ (upsert_order p db).2 ∧
      (∃ op ∈ (upsert_order p db).2, op.isUpdate = true) ∧
      (upsert_order p db1).1 = Except.ok db1 ∧
      DbOp.insert ∉ (upsert_order p db1).2 ∧
      db1.length = db.length := by
  by_cases hoh : order_lookup_hit p db = true
  · rcases ho : orderRefOf p with _ | v
    · rw [order_lookup_hit, ho] at hoh
      exact absurd hoh (by simp)
    · rw [order_lookup_hit, ho] at hoh
      have hbv := (Bool.and_eq_true _ _).mp hoh
      have hv2 : v ≠ "" := by simpa [bne_iff_ne] using hbv.1
      have E1 := upsert_order_order_hit p db v ho hv2 hbv.2
      have hany1 : (db.map fun o =>
          if orderMatches v o then update_fields_by_order p o else o).any
            (orderMatches v) = true := by
        rw [any_map_eq db _ _ (fun o => orderMatches_order_branch p v o)]
        exact hbv.2
      have E2 := upsert_order_order_hit p
        (db.map fun o => if orderMatches v o then update_fields_by_order p o else o)
        v ho hv2 hany1
      refine ⟨db.map fun o => if orderMatches v o then update_fields_by_order p o else o,
        ?_, ?_, ?_, ?_, ?_, ?_⟩
      · rw [E1]
      · rw [E1]; simp
      · rw [E1]
        exact ⟨DbOp.updateByOrderNumber v, by simp, rfl⟩
      · rw [E2]
        exact congrArg Except.ok (map_map_idem db _ (order_branch_idem p v))
      · rw [E2]; simp
      · simp
  · have hth : tx_lookup_hit p db = true := by
      rcases h with h | h
      · exact absurd h hoh
      · exact h
    rcases ht : txIdOf p with _ | t
    · rw [tx_lookup_hit, ht] at hth
      exact absurd hth (by simp)
    · rw [tx_lookup_hit, ht] at hth
      have hbt := (Bool.and_eq_true _ _).mp hth
      have ht2 : t ≠ "" := by simpa [bne_iff_ne] using hbt.1
      have hval : truthy (txIdOf p) = true ∨ truthy (orderRefOf p) = true := by
        left
        rw [ht]
        exact truthy_some ht2
      obtain ⟨ops0, hw0, heq⟩ :=
        upsert_order_no_order_hit p db (by simpa using hoh) hval
      have E1 := heq.trans (upsert_step2_tx_hit p db ops0 t ht ht2 hbt.2)
      have hmiss1 : order_lookup_hit p
          (db.map fun o => if txMatches t o then update_fields_by_tx p o else o) =
          false := by
        rw [order_lookup_hit_tx_map]
        simpa using hoh
      obtain ⟨ops0', hw0', heq'⟩ := upsert_order_no_order_hit p
        (db.map fun o => if txMatches t o then update_fields_by_tx p o else o)
        hmiss1 hval
      have hany1 : (db.map fun o =>
          if txMatches t o then update_fields_by_tx p o else o).any
            (txMatches t) = true := by
        rw [any_map_eq db _ _ (fun o => txMatches_tx_branch p t o)]
        exact hbt.2
      have E2 := heq'.trans (upsert_step2_tx_hit p
        (db.map fun o => if txMatches t o then update_fields_by_tx p o else o)
        ops0' t ht ht2 hany1)
      refine ⟨db.map fun o => if txMatches t o then update_fields_by_tx p o else o,
        ?_, ?_, ?_, ?_, ?_, ?_⟩
      · rw [E1]
      · rw [E1]
        intro hm
        rcases List.mem_append.mp hm with hm | hm
        · exact insert_not_mem_of_writes_free ops0 hw0 hm
        · simp at hm
      · rw [E1]
        refine ⟨DbOp.updateByTransactionId t, ?_, rfl⟩
        simp
      · rw [E2]
        exact congrArg Except.ok (map_map_idem db _ (tx_branch_idem p t))
      · rw [E2]
        intro hm
        rcases List.mem_append.mp hm with hm | hm
        · exact insert_not_mem_of_writes_free ops0' hw0' hm
        · simp at hm
      · simp

/-- Witness for C8: the spec's own scenario — reference "TX55" with a raw
failed status against a table whose only order has transaction_id "TX55". -/
theorem claim_C8_witness :
    ∃ db1 : List Order,
      (upsert_order ⟨none, some "TX55", none, none, some "failed", none, none⟩
        [⟨some "A1", some "TX55", none, none, none, some "pending", none, none⟩]).1 =
        Except.ok db1 ∧
      DbOp.insert ∉
        (upsert_order ⟨none, some "TX55", none, none, some "failed", none, none⟩
          [⟨some "A1", some "TX55", none, none, none, some "pending", none, none⟩]).2 ∧
      (∃ op ∈ (upsert_order ⟨none, some "TX55", none, none, some "failed", none, none⟩
          [⟨some "A1", some "TX55", none, none, none, some "pending", none, none⟩]).2,
        op.isUpdate = true) ∧
      (upsert_order ⟨none, some "TX55", none, none, some "failed", none, none⟩ db1).1 =
        Except.ok db1 ∧
      DbOp.insert ∉
        (upsert_order ⟨none, some "TX55", none, none, some "failed", none, none⟩ db1).2 ∧
      db1.length =
        ([⟨some "A1", some "TX55", none, none, none, some "pending", none, none⟩] :
          List Order).length :=
  claim_C8_update_idempotence
    ⟨none, some "TX55", none, none, some "failed", none, none⟩
    [⟨some "A1", some "TX55", none, none, none, some "pending", none, none⟩]
    (Or.inr (by decide))
